import Mathlib

/-!
# Verification of the Bollinger breakout trading core

Shallow embedding of the core of the `binance_trading_system` repository:

* `src/strategy.py` — the strategy state machine (`StrategyState`, `decide`);
* `src/indicators.py` — the rolling indicator engine (`Indicator.add_kline`,
  `Indicator.compute_realtime_boll`);
* `src/ws_client.py` — the reconnect/backoff loop of `WSClient.connect_and_listen`,
  modelled as a transition system on the backoff value over connection rounds;
* `src/main.py` — the per-bar consumer callback `on_kline`, modelled as a pure
  function from its inputs to the list of persistence effects it performs.

Prices are embedded as rationals (`ℚ`); the Python floats of the source are
64-bit IEEE, and every claim below is about ordering, control flow and exact
series identity rather than rounding, so `ℚ` is the faithful idealisation.
The standard deviation `std` of a series is represented throughout by its
square, the `ddof`-variance, as a `ℚ` value: `std = √var` is irrational in
general, and `std` is zero (resp. NaN) exactly when the variance is zero
(resp. undefined, i.e. the series length is ≤ `ddof`).  Band values satisfy
`up = ma + k·std`, `dn = ma - k·std`, so two snapshots agree in all four
components `(ma, std, up, dn)` iff they agree as `(ma, var)` pairs with the
same configured multiplier.
-/

namespace BTS

/-! ## Strategy engine (`src/strategy.py`) -/

/-- The `position` field of `StrategyState`: `"flat" | "long" | "short"`. -/
inductive Pos where
  | flat
  | long
  | short
  deriving DecidableEq, Repr

/-- Values of the `pending` field (the `None` case is `Option.none`). -/
inductive Pending where
  | waiting_short_entry
  | waiting_long_entry
  | waiting_short_confirm
  | waiting_long_confirm
  deriving DecidableEq, Repr

/-- The signals `decide` can return (`None` is `Option.none`). -/
inductive Signal where
  | open_short
  | open_long
  | close_short_open_long
  | close_long_open_short
  | stop_loss_short
  | stop_loss_long
  deriving DecidableEq, Repr

/-- The `StrategyState` record (src/strategy.py lines 3–12). -/
structure StrategyState where
  position : Pos := Pos.flat
  pending : Option Pending := none
  entry_price : Option ℚ := none
  breakout_level : Option ℚ := none
  breakout_up : Bool := false
  breakout_dn : Bool := false
  last_close_price : Option ℚ := none
  deriving DecidableEq, Repr

/-- Breakout-flag update, src/strategy.py lines 57–72: first the
close-vs-previous-close edge test (guarded by `last_close_price` being
present), then the high-wick test, then the low-wick test, each overwriting
the pair `(breakout_up, breakout_dn)`. -/
def breakoutFlagsAfter (close_price up dn : ℚ) (high_price low_price : Option ℚ)
    (lcp : Option ℚ) (bu bd : Bool) : Bool × Bool :=
  let f1 : Bool × Bool :=
    match lcp with
    | some p =>
      if p ≤ up ∧ up < close_price then (true, false)
      else if dn ≤ p ∧ close_price < dn then (false, true)
      else (bu, bd)
    | none => (bu, bd)
  let f2 : Bool × Bool :=
    match high_price with
    | some h => if up < h then (true, false) else f1
    | none => f1
  match low_price with
  | some l => if l < dn then (false, true) else f2
  | none => f2

/-- The state after the breakout-flag update step; only the two flag fields
change. -/
def updateBreakoutFlags (close_price up dn : ℚ) (high_price low_price : Option ℚ)
    (s : StrategyState) : StrategyState :=
  let f := breakoutFlagsAfter close_price up dn high_price low_price
    s.last_close_price s.breakout_up s.breakout_dn
  { s with breakout_up := f.1, breakout_dn := f.2 }

/-- Stop-loss step, src/strategy.py lines 74–97: immediate, keyed on the entry
price ± 0.1% (`STOP_PCT = 0.001`); fires only when a position and its entry
price are both present. -/
def stopLoss (close_price : ℚ) (is_closed : Bool) (s : StrategyState) :
    Option Signal × StrategyState :=
  match s.position, s.entry_price with
  | Pos.short, some ep =>
    if ep * (1 + 1/1000) ≤ close_price then
      (some Signal.stop_loss_short,
        { position := Pos.flat
          pending := none
          entry_price := none
          breakout_level := none
          breakout_up := false
          breakout_dn := false
          last_close_price := if is_closed then some close_price else s.last_close_price })
    else (none, s)
  | Pos.long, some ep =>
    if close_price ≤ ep * (1 - 1/1000) then
      (some Signal.stop_loss_long,
        { position := Pos.flat
          pending := none
          entry_price := none
          breakout_level := none
          breakout_up := false
          breakout_dn := false
          last_close_price := if is_closed then some close_price else s.last_close_price })
    else (none, s)
  | _, _ => (none, s)

/-- Helper `_can_act`, src/strategy.py lines 99–100. -/
def canAct (is_closed only_on_close : Bool) : Bool :=
  is_closed || !only_on_close

/-- Helper `_short_reentry_threshold`, src/strategy.py lines 103–106.  Note the
Python truthiness test `use_breakout_level_for_entry and state.breakout_level`:
a stored level of `0.0` is falsy and falls back to `up`. -/
def shortReentryThreshold (up reentry_buffer_pct : ℚ)
    (use_breakout_level_for_entry : Bool) (lvl : Option ℚ) : ℚ :=
  let base :=
    match lvl with
    | some b => if use_breakout_level_for_entry ∧ b ≠ 0 then b else up
    | none => up
  base * (1 - max 0 reentry_buffer_pct)

/-- Helper `_long_reentry_threshold`, src/strategy.py lines 108–111. -/
def longReentryThreshold (dn reentry_buffer_pct : ℚ)
    (use_breakout_level_for_entry : Bool) (lvl : Option ℚ) : ℚ :=
  let base :=
    match lvl with
    | some b => if use_breakout_level_for_entry ∧ b ≠ 0 then b else dn
    | none => dn
  base * (1 + max 0 reentry_buffer_pct)

/-- Final bookkeeping, src/strategy.py lines 167–175: clear both flags when
the close is back inside the band and nothing is pending (no `is_closed`
guard in the source), then update `last_close_price` only on a closed bar. -/
def finishNone (close_price up dn : ℚ) (is_closed : Bool) (s : StrategyState) :
    Option Signal × StrategyState :=
  let s1 := if close_price ≤ up ∧ dn ≤ close_price ∧ s.pending = none
    then { s with breakout_up := false, breakout_dn := false } else s
  (none, if is_closed then { s1 with last_close_price := some close_price } else s1)

/-- The position-dependent transition block, src/strategy.py lines 113–175,
run after the stop-loss step returned no signal. -/
def afterStop (close_price up dn : ℚ) (is_closed only_on_close : Bool)
    (use_breakout_level_for_entry : Bool) (reentry_buffer_pct : ℚ)
    (s : StrategyState) : Option Signal × StrategyState :=
  match s.position with
  | Pos.flat =>
    let sA := if s.breakout_up ∧ s.pending ≠ some Pending.waiting_short_entry
      then { s with pending := some Pending.waiting_short_entry, breakout_level := some up }
      else s
    let sB := if sA.breakout_dn ∧ sA.pending ≠ some Pending.waiting_long_entry
      then { sA with pending := some Pending.waiting_long_entry, breakout_level := some dn }
      else sA
    if sB.pending = some Pending.waiting_short_entry ∧
        close_price ≤ shortReentryThreshold up reentry_buffer_pct
          use_breakout_level_for_entry sB.breakout_level ∧
        canAct is_closed only_on_close then
      (some Signal.open_short,
        { sB with
          position := Pos.short
          pending := none
          entry_price := some close_price
          breakout_up := false
          last_close_price := if is_closed then some close_price else sB.last_close_price })
    else if sB.pending = some Pending.waiting_long_entry ∧
        longReentryThreshold dn reentry_buffer_pct
          use_breakout_level_for_entry sB.breakout_level ≤ close_price ∧
        canAct is_closed only_on_close then
      (some Signal.open_long,
        { sB with
          position := Pos.long
          pending := none
          entry_price := some close_price
          breakout_dn := false
          last_close_price := if is_closed then some close_price else sB.last_close_price })
    else finishNone close_price up dn is_closed sB
  | Pos.short =>
    let sA := if s.breakout_dn ∧ s.pending ≠ some Pending.waiting_long_confirm
      then { s with pending := some Pending.waiting_long_confirm, breakout_level := some dn }
      else s
    if sA.pending = some Pending.waiting_long_confirm ∧
        longReentryThreshold dn reentry_buffer_pct
          use_breakout_level_for_entry sA.breakout_level ≤ close_price ∧
        canAct is_closed only_on_close then
      (some Signal.close_short_open_long,
        { sA with
          position := Pos.long
          pending := none
          entry_price := some close_price
          breakout_dn := false
          last_close_price := if is_closed then some close_price else sA.last_close_price })
    else finishNone close_price up dn is_closed sA
  | Pos.long =>
    let sA := if s.breakout_up ∧ s.pending ≠ some Pending.waiting_short_confirm
      then { s with pending := some Pending.waiting_short_confirm, breakout_level := some up }
      else s
    if sA.pending = some Pending.waiting_short_confirm ∧
        close_price ≤ shortReentryThreshold up reentry_buffer_pct
          use_breakout_level_for_entry sA.breakout_level ∧
        canAct is_closed only_on_close then
      (some Signal.close_long_open_short,
        { sA with
          position := Pos.short
          pending := none
          entry_price := some close_price
          breakout_up := false
          last_close_price := if is_closed then some close_price else sA.last_close_price })
    else finishNone close_price up dn is_closed sA

/-- The function `decide`, src/strategy.py lines 38–175.  `up`/`dn` arrive as options
(the availability guard of lines 53–55); the Python mutation of `state` is
made explicit by returning the new state next to the optional signal. -/
def decide (close_price : ℚ) (up? dn? : Option ℚ)
    (high_price low_price : Option ℚ)
    (is_closed only_on_close use_breakout_level_for_entry : Bool)
    (reentry_buffer_pct : ℚ) (s : StrategyState) :
    Option Signal × StrategyState :=
  match up?, dn? with
  | some up, some dn =>
    let s1 := updateBreakoutFlags close_price up dn high_price low_price s
    let sl := stopLoss close_price is_closed s1
    match sl.1 with
    | some _ => sl
    | none => afterStop close_price up dn is_closed only_on_close
        use_breakout_level_for_entry reentry_buffer_pct s1
  | _, _ => (none, s)

/-! ## Indicator engine (`src/indicators.py`)

The pandas dataframe `Indicator.df` is embedded as a `List Bar` in insertion
order (the dataframe's row order).  `Series.tail n` is "last `n` elements",
embedded as `lastN`; `df.iloc[-m:]` is embedded as `ilocLast` including the
Python corner case that a slice `[-0:]` keeps *all* rows. -/

/-- One bar: `KlineEvent` / one dataframe row (src/ws_client.py lines 10–19,
src/indicators.py lines 14–23).  `open` is a Lean keyword, hence
`open_price`. -/
structure Bar where
  open_time : ℤ
  close_time : ℤ
  open_price : ℚ
  high : ℚ
  low : ℚ
  close : ℚ
  volume : ℚ
  is_closed : Bool
  deriving DecidableEq, Repr

/-- Constructor parameters of `Indicator` (src/indicators.py line 4). -/
structure IndicatorCfg where
  window : ℕ := 20
  boll_multiplier : ℚ := 2
  boll_ddof : ℕ := 0
  max_rows : ℕ := 200
  deriving DecidableEq, Repr

/-- Last `n` elements of a list: pandas `Series.tail n`. -/
def lastN (n : ℕ) (l : List ℚ) : List ℚ :=
  l.drop (l.length - n)

/-- Last `n` rows of the dataframe: `df.iloc[-n:]`.  For `n = 0` the Python
slice `iloc[-0:]` is `iloc[0:]` and keeps every row. -/
def ilocLast (n : ℕ) (l : List Bar) : List Bar :=
  if n = 0 then l else l.drop (l.length - n)

/-- Mean (`Series.mean`) of a series embedded as a list (series in this file are
nonempty wherever `mean` is consulted; `window ≥ 1` per the configuration). -/
def mean (l : List ℚ) : ℚ :=
  l.sum / l.length

/-- The square of `Series.std(ddof)`: the sum of squared deviations from the
mean divided by `n - ddof`.  `none` encodes pandas' NaN result, produced
exactly when `n ≤ ddof`; the std itself is the square root of this value and
is zero or NaN exactly when this value is `some 0` or `none`. -/
def varDdof (ddof : ℕ) (l : List ℚ) : Option ℚ :=
  if l.length ≤ ddof then none
  else some (((l.map (fun x => (x - mean l) ^ 2)).sum) / ((l.length : ℚ) - (ddof : ℚ)))

/-- An available Bollinger snapshot.  `std` is carried as its square `var`
(`Option ℚ`, `none` = NaN); `up = ma + k·√var` and `dn = ma - k·√var` are
determined by `(ma, var)` together with the configured multiplier, so
snapshot equality in all four reported components is equality of this
record. -/
structure Boll where
  ma : ℚ
  var : Option ℚ
  deriving DecidableEq, Repr

/-- The closes of the `is_closed = true` rows, in row order
(`closed_df["close"]`). -/
def closedCloses (df : List Bar) : List ℚ :=
  (df.filter (fun b => b.is_closed)).map (fun b => b.close)

/-- Method `Indicator.add_kline` (src/indicators.py lines 13–37): append the row,
evict to the last `max_rows` rows when over capacity, then compute the
canonical snapshot from the last `window` closed closes (unavailable when
fewer than `window` closed rows exist).  Returns (snapshot, new dataframe);
the Python method mutates `self.df` and returns the snapshot. -/
def addKline (cfg : IndicatorCfg) (df : List Bar) (k : Bar) :
    Option Boll × List Bar :=
  let df1 := df ++ [k]
  let df2 := if df1.length > cfg.max_rows then ilocLast cfg.max_rows df1 else df1
  let closed := closedCloses df2
  if closed.length < cfg.window then (none, df2)
  else
    let closes := lastN cfg.window closed
    (some { ma := mean closes, var := varDdof cfg.boll_ddof closes }, df2)

/-- The transient realtime series: the last
`min(closedCount, max(1, window-1))` closed closes plus the current forming
price (src/indicators.py lines 52–53). -/
def rtSeries (cfg : IndicatorCfg) (df : List Bar) (current_close : ℚ) : List ℚ :=
  let closed := closedCloses df
  lastN (min closed.length (max 1 (cfg.window - 1))) closed ++ [current_close]

/-- Method `Indicator.compute_realtime_boll` (src/indicators.py lines 40–69):
unavailable when no closed bar exists, when the series has fewer than two
points, or when the std is zero or NaN; otherwise the snapshot of the
transient series. -/
def computeRealtimeBoll (cfg : IndicatorCfg) (df : List Bar)
    (current_close : ℚ) : Option Boll :=
  if (closedCloses df).length = 0 then none
  else
    let closes := rtSeries cfg df current_close
    if closes.length < 2 then none
    else
      match varDdof cfg.boll_ddof closes with
      | none => none
      | some v => if v = 0 then none else some { ma := mean closes, var := some v }

/-! ## Stream client reconnect loop (`src/ws_client.py`)

One iteration of the `while` loop of `WSClient.connect_and_listen`
(lines 48–130) is a *round*: either every candidate URL fails to connect
(`failAll` — the loop sleeps for the current backoff and doubles it, capped
at `backoff_max`, lines 114–121), or some candidate connects (`success n`,
delivering `n` messages — the backoff is reset to `backoff_initial` at line
81, immediately on connection open and before any message arrives, and no
sleep happens).  The model returns the sequence of sleep delays. -/

/-- Backoff parameters of `WSClient` (src/ws_client.py lines 30–31, 39–40). -/
structure WSCfg where
  backoff_initial : ℕ := 1
  backoff_max : ℕ := 60
  deriving DecidableEq, Repr

/-- Outcome of one round of the reconnect loop: all candidates failed, or a
connection opened and delivered `messages` messages before dying. -/
inductive RoundOutcome where
  | failAll
  | success (messages : ℕ)
  deriving DecidableEq, Repr

/-- The sleep delays emitted by the reconnect loop from current backoff `b`
over a sequence of round outcomes (src/ws_client.py lines 50, 81, 119–120). -/
def runRounds (cfg : WSCfg) (b : ℕ) : List RoundOutcome → List ℕ
  | [] => []
  | RoundOutcome.failAll :: rest => b :: runRounds cfg (min (b * 2) cfg.backoff_max) rest
  | RoundOutcome.success _ :: rest => runRounds cfg cfg.backoff_initial rest

/-- Delay trace of `WSClient.connect_and_listen`: the loop starts with
`backoff = backoff_initial` (line 49). -/
def connect_and_listen (cfg : WSCfg) (outs : List RoundOutcome) : List ℕ :=
  runRounds cfg cfg.backoff_initial outs

/-- Modelled from the spec: the spec's backoff-reset rule, under which a
successful connection resets the backoff only when it delivered at least one
message ("resets to `backoffInitial` after any successful connection that
delivers at least one message").  Used solely to compare the code's delays
against the spec's predicted delays. -/
def runRoundsSpecReset (cfg : WSCfg) (b : ℕ) : List RoundOutcome → List ℕ
  | [] => []
  | RoundOutcome.failAll :: rest =>
      b :: runRoundsSpecReset cfg (min (b * 2) cfg.backoff_max) rest
  | RoundOutcome.success n :: rest =>
      runRoundsSpecReset cfg (if 1 ≤ n then cfg.backoff_initial else b) rest

/-! ## Per-bar consumer callback (`src/main.py`, `on_kline`)

`on_kline` (src/main.py lines 218–388) is embedded as a pure function from
its inputs to the list of persistence-store effects it performs, the updated
strategy state and the updated indicator dataframe.  External collaborators
are abstracted as oracles: the trader's position query and order results
(`TraderOracle`), and the float square root used to turn the realtime
variance into band values (`sqrtA : ℚ → ℚ` — the only float operation with no
rational counterpart; every claim settled below is independent of its
values). -/

/-- The subset of the loaded configuration `on_kline` consults. -/
structure AppCfg where
  simulate_trading : Bool
  has_api_keys : Bool
  only_on_close : Bool
  use_breakout_level_for_entry : Bool := false
  reentry_buffer_pct : ℚ := 0
  stop_loss_enabled : Bool := false
  deriving DecidableEq, Repr

/-- Oracle for the execution collaborator (`trader`): the position query of
src/main.py lines 243–254 and the success of order placement in the
real-trading branch. -/
structure TraderOracle where
  position_query_fails : Bool
  position_info : Option Pos
  order_ok : Bool
  deriving DecidableEq, Repr

/-- The persistence-store operations `on_kline` can invoke (src/db.py).
`saveStrategyState` carries the snapshot that is written. -/
inductive Effect where
  | insertKline
  | upsertIndicator
  | logSignal (s : Signal)
  | logTrade
  | updateTradeStatus
  | saveStrategyState (st : StrategyState)
  deriving DecidableEq, Repr

/-- Whether an effect is a strategy-state snapshot write. -/
def Effect.isSave : Effect → Bool
  | Effect.saveStrategyState _ => true
  | _ => false

/-- Trade-log effects of the simulated-trading branch
(src/main.py lines 268–305); the branch ends with `return`. -/
def simTradeEffects : Signal → List Effect
  | Signal.open_short => [Effect.logTrade]
  | Signal.open_long => [Effect.logTrade]
  | Signal.close_short_open_long => [Effect.logTrade, Effect.updateTradeStatus, Effect.logTrade]
  | Signal.close_long_open_short => [Effect.logTrade, Effect.updateTradeStatus, Effect.logTrade]
  | Signal.stop_loss_short => [Effect.logTrade, Effect.updateTradeStatus]
  | Signal.stop_loss_long => [Effect.logTrade, Effect.updateTradeStatus]

/-- Trade-log effects of the real-trading branch (src/main.py lines
310–374); orders that fail (`qty = 0` / no close order) log nothing, and the
branch falls through to the state save in every case. -/
def realTradeEffects (tr : TraderOracle) : Signal → List Effect
  | Signal.open_short => if tr.order_ok then [Effect.logTrade] else []
  | Signal.open_long => if tr.order_ok then [Effect.logTrade] else []
  | Signal.close_short_open_long =>
      if tr.order_ok then [Effect.logTrade, Effect.updateTradeStatus, Effect.logTrade] else []
  | Signal.close_long_open_short =>
      if tr.order_ok then [Effect.logTrade, Effect.updateTradeStatus, Effect.logTrade] else []
  | Signal.stop_loss_short =>
      if tr.order_ok then [Effect.logTrade, Effect.updateTradeStatus] else []
  | Signal.stop_loss_long =>
      if tr.order_ok then [Effect.logTrade, Effect.updateTradeStatus] else []

/-- The position-sync step of src/main.py lines 243–254: outside simulation
and with API keys, overwrite `state.position` from the exchange; on query
failure keep the local state. -/
def syncPosition (cfg : AppCfg) (tr : TraderOracle) (st : StrategyState) :
    StrategyState :=
  if ¬cfg.simulate_trading ∧ cfg.has_api_keys ∧ ¬tr.position_query_fails then
    match tr.position_info with
    | some p => { st with position := p }
    | none => { st with position := Pos.flat }
  else st

/-- The float `std` the callback derives from the realtime snapshot before
forming the bands (the square root of the carried variance, evaluated by the
`sqrtA` oracle). -/
def rtStd (sqrtA : ℚ → ℚ) (rt : Boll) : ℚ :=
  match rt.var with
  | some v => sqrtA v
  | none => 0

/-- The callback `on_kline` (src/main.py lines 218–388): persist the bar, feed the
indicator, persist the indicator row for a closed bar with an available
canonical snapshot, compute the realtime bands over the updated dataframe
(which already contains the incoming bar), return early when they are
unavailable, otherwise sync the position, run `decide` and dispatch on the
signal; the simulated-trading branch and the missing-API-keys branch
`return` before the final `save_strategy_state`. -/
def onKline (cfg : AppCfg) (ind : IndicatorCfg) (tr : TraderOracle)
    (sqrtA : ℚ → ℚ) (df : List Bar) (st : StrategyState) (k : Bar) :
    List Effect × StrategyState × List Bar :=
  let r := addKline ind df k
  let df' := r.2
  let eff0 := Effect.insertKline ::
    (if k.is_closed ∧ r.1 ≠ none then [Effect.upsertIndicator] else [])
  match computeRealtimeBoll ind df' k.close with
  | none => (eff0, st, df')
  | some rt =>
    let rt_up := rt.ma + ind.boll_multiplier * rtStd sqrtA rt
    let rt_dn := rt.ma - ind.boll_multiplier * rtStd sqrtA rt
    let st1 := syncPosition cfg tr st
    let d := decide k.close (some rt_up) (some rt_dn) (some k.high) (some k.low)
      k.is_closed cfg.only_on_close cfg.use_breakout_level_for_entry
      cfg.reentry_buffer_pct st1
    match d.1 with
    | some sig =>
      if cfg.simulate_trading then
        (eff0 ++ Effect.logSignal sig :: simTradeEffects sig, d.2, df')
      else if ¬cfg.has_api_keys then
        (eff0 ++ [Effect.logSignal sig], d.2, df')
      else
        (eff0 ++ Effect.logSignal sig :: realTradeEffects tr sig ++
          [Effect.saveStrategyState d.2], d.2, df')
    | none => (eff0 ++ [Effect.saveStrategyState d.2], d.2, df')

/-! ## Helper lemmas -/

/-- The flag-update step only writes the two flag fields. -/
theorem updateBreakoutFlags_position (c up dn : ℚ) (hp lp : Option ℚ) (s : StrategyState) :
    (updateBreakoutFlags c up dn hp lp s).position = s.position := rfl

theorem updateBreakoutFlags_pending (c up dn : ℚ) (hp lp : Option ℚ) (s : StrategyState) :
    (updateBreakoutFlags c up dn hp lp s).pending = s.pending := rfl

theorem updateBreakoutFlags_entry_price (c up dn : ℚ) (hp lp : Option ℚ) (s : StrategyState) :
    (updateBreakoutFlags c up dn hp lp s).entry_price = s.entry_price := rfl

theorem updateBreakoutFlags_last_close_price (c up dn : ℚ) (hp lp : Option ℚ)
    (s : StrategyState) :
    (updateBreakoutFlags c up dn hp lp s).last_close_price = s.last_close_price := rfl

/-- A concrete bar builder for witnesses and counterexamples: one bar at
`open_time = t` with all four prices equal to `c`. -/
def bT (t : ℤ) (c : ℚ) (cl : Bool) : Bar :=
  { open_time := t, close_time := t + 1, open_price := c, high := c, low := c,
    close := c, volume := 1, is_closed := cl }

/-- At most one breakout flag is set. -/
def flagsMutex (s : StrategyState) : Prop :=
  s.breakout_up = false ∨ s.breakout_dn = false

theorem breakoutFlagsAfter_mutex (c up dn : ℚ) (hp lp lcp : Option ℚ) (bu bd : Bool)
    (hm : bu = false ∨ bd = false) :
    (breakoutFlagsAfter c up dn hp lp lcp bu bd).1 = false ∨
      (breakoutFlagsAfter c up dn hp lp lcp bu bd).2 = false := by
  unfold breakoutFlagsAfter
  cases lcp <;> cases hp <;> cases lp <;> dsimp only <;>
    first
      | (split_ifs <;> simp_all)
      | simp_all

theorem stopLoss_mutex (c : ℚ) (ic : Bool) (s : StrategyState) (hm : flagsMutex s) :
    flagsMutex (stopLoss c ic s).2 := by
  unfold stopLoss
  rcases s with ⟨pos, pen, ep, lvl, bu, bd, lcp⟩
  cases pos <;> cases ep <;> dsimp only <;>
    first
      | (split_ifs <;> simp_all [flagsMutex])
      | simp_all [flagsMutex]

theorem finishNone_mutex (c up dn : ℚ) (ic : Bool) (s : StrategyState) (hm : flagsMutex s) :
    flagsMutex (finishNone c up dn ic s).2 := by
  unfold finishNone
  split_ifs <;> simp_all [flagsMutex]

theorem afterStop_mutex (c up dn : ℚ) (ic oc ul : Bool) (rbp : ℚ) (s : StrategyState)
    (hm : flagsMutex s) :
    flagsMutex (afterStop c up dn ic oc ul rbp s).2 := by
  unfold afterStop
  rcases s with ⟨pos, pen, ep, lvl, bu, bd, lcp⟩
  cases pos <;> dsimp only <;> split_ifs <;>
    first
      | exact finishNone_mutex _ _ _ _ _ (by simp_all [flagsMutex])
      | simp_all [flagsMutex]

/-! ## C9, C10 -/

/-- C9: for every strategy state in which at most one of `breakout_up` and
`breakout_dn` is true and every input tuple, the state returned by `decide`
again has at most one flag true — every operation in the call that sets one
flag clears the other. -/
theorem c9_flags_mutex_preserved (c : ℚ) (up? dn? hp lp : Option ℚ)
    (ic oc ul : Bool) (rbp : ℚ) (s : StrategyState) (hm : flagsMutex s) :
    flagsMutex (decide c up? dn? hp lp ic oc ul rbp s).2 := by
  cases up? with
  | none => exact hm
  | some up =>
    cases dn? with
    | none => exact hm
    | some dn =>
      unfold decide
      dsimp only
      have hm1 : flagsMutex (updateBreakoutFlags c up dn hp lp s) :=
        breakoutFlagsAfter_mutex c up dn hp lp s.last_close_price
          s.breakout_up s.breakout_dn hm
      rcases hsl : (stopLoss c ic (updateBreakoutFlags c up dn hp lp s)).1 with _ | sig
      · simp only [hsl]
        exact afterStop_mutex c up dn ic oc ul rbp _ hm1
      · simp only [hsl]
        have := stopLoss_mutex c ic (updateBreakoutFlags c up dn hp lp s) hm1
        exact this

/-- C9 witness: a concrete state with one flag set keeps the invariant. -/
theorem c9_witness :
    flagsMutex (decide 5 (some 10) (some 1) none none true true false 0
      { position := Pos.flat, pending := none, entry_price := none, breakout_level := none,
        breakout_up := true, breakout_dn := false, last_close_price := some 4 }).2 :=
  c9_flags_mutex_preserved 5 (some 10) (some 1) none none true true false 0 _
    (Or.inr rfl)

/-- C10: when `up` or `dn` is unavailable (`None`), `decide` returns no
signal and leaves the state untouched (src/strategy.py lines 53–55). -/
theorem c10_unavailable_noop (c : ℚ) (up? dn? hp lp : Option ℚ)
    (ic oc ul : Bool) (rbp : ℚ) (s : StrategyState)
    (h : up? = none ∨ dn? = none) :
    decide c up? dn? hp lp ic oc ul rbp s = (none, s) := by
  rcases h with h | h
  · subst h; cases dn? <;> rfl
  · subst h; cases up? <;> rfl

/-- C10 witness: concrete unavailable-band call is a no-op. -/
theorem c10_witness :
    decide 7 none (some 2) (some 8) (some 6) true true false 0
      { position := Pos.long, pending := some Pending.waiting_short_confirm,
        entry_price := some 3, breakout_level := some 9, breakout_up := true,
        breakout_dn := false, last_close_price := some 7 } =
    (none,
      { position := Pos.long, pending := some Pending.waiting_short_confirm,
        entry_price := some 3, breakout_level := some 9, breakout_up := true,
        breakout_dn := false, last_close_price := some 7 }) :=
  c10_unavailable_noop 7 none (some 2) (some 8) (some 6) true true false 0 _
    (Or.inl rfl)

/-! ## C6: reconnect backoff -/

theorem min_two_pow_min (i b M : ℕ) :
    min (2 ^ i * min (b * 2) M) M = min (2 ^ (i + 1) * b) M := by
  rcases le_total (b * 2) M with h | h
  · rw [min_eq_left h, pow_succ]
    ring_nf
  · have hpow : (2 : ℕ) ≤ 2 ^ (i + 1) := by
      calc (2 : ℕ) = 2 ^ 1 := (pow_one 2).symm
        _ ≤ 2 ^ (i + 1) := Nat.pow_le_pow_right (by norm_num) (by omega)
    have h1 : M ≤ 2 ^ i * M := Nat.le_mul_of_pos_left M (Nat.pos_pow_of_pos i (by norm_num))
    have h2 : M ≤ 2 ^ (i + 1) * b := by
      calc M ≤ b * 2 := h
        _ ≤ b * 2 ^ (i + 1) := Nat.mul_le_mul_left b hpow
        _ = 2 ^ (i + 1) * b := mul_comm _ _
    rw [min_eq_right h, min_eq_right h1, min_eq_right h2]

/-- Delays over a streak of `n` failed rounds starting from backoff `b`:
`b, min(2b, M), min(4b, M), …`, leaving the backoff at `min(2^n·b, M)`. -/
theorem runRounds_fail_streak (cfg : WSCfg) (b : ℕ) (hb : b ≤ cfg.backoff_max)
    (n : ℕ) (rest : List RoundOutcome) :
    runRounds cfg b (List.replicate n RoundOutcome.failAll ++ rest) =
      (List.range n).map (fun i => min (2 ^ i * b) cfg.backoff_max) ++
        runRounds cfg (min (2 ^ n * b) cfg.backoff_max) rest := by
  induction n generalizing b with
  | zero =>
    simp [min_eq_left, pow_zero, one_mul, min_eq_left hb]
  | succ n ih =>
    rw [List.replicate_succ, List.cons_append]
    show b :: runRounds cfg (min (b * 2) cfg.backoff_max)
        (List.replicate n RoundOutcome.failAll ++ rest) = _
    rw [ih (min (b * 2) cfg.backoff_max) (min_le_right _ _)]
    have hmap : (List.range n).map
          (fun i => min (2 ^ i * min (b * 2) cfg.backoff_max) cfg.backoff_max) =
        (List.range n).map (fun i => min (2 ^ (i + 1) * b) cfg.backoff_max) :=
      List.map_congr_left (fun i _ => min_two_pow_min i b cfg.backoff_max)
    rw [hmap, min_two_pow_min, List.range_succ_eq_map, List.map_cons, List.map_map,
      pow_zero, one_mul, min_eq_left hb, List.cons_append]
    congr 2

/-- C6 (amended): delays over failed rounds double from `backoffInitial` and
are capped at `backoffMax`; a successful connection resets the backoff to
`backoffInitial` on connection open, before any message is delivered —
regardless of how many messages (possibly zero) the connection then
delivers. -/
theorem c6_backoff_doubles_resets_on_open (cfg : WSCfg)
    (hb : cfg.backoff_initial ≤ cfg.backoff_max) (n m : ℕ)
    (rest : List RoundOutcome) :
    connect_and_listen cfg
        (List.replicate n RoundOutcome.failAll ++ RoundOutcome.success m :: rest) =
      (List.range n).map (fun i => min (2 ^ i * cfg.backoff_initial) cfg.backoff_max) ++
        runRounds cfg cfg.backoff_initial rest := by
  unfold connect_and_listen
  rw [runRounds_fail_streak cfg cfg.backoff_initial hb n]
  rfl

/-- C6 witness: two failures, a zero-message success, then a failure, at
`backoffInitial = 1`, `backoffMax = 60`: delays `1, 2` then `1` again. -/
theorem c6_witness :
    connect_and_listen { backoff_initial := 1, backoff_max := 60 }
        (List.replicate 2 RoundOutcome.failAll ++
          RoundOutcome.success 0 :: [RoundOutcome.failAll]) =
      (List.range 2).map (fun i => min (2 ^ i * 1) 60) ++
        runRounds { backoff_initial := 1, backoff_max := 60 } 1 [RoundOutcome.failAll] :=
  c6_backoff_doubles_resets_on_open { backoff_initial := 1, backoff_max := 60 }
    (by norm_num) 2 0 [RoundOutcome.failAll]

/-- C6 counterexample: the code resets the backoff on connection open (line
81 of src/ws_client.py), so after a successful connection that delivered
*zero* messages the next delay is `backoffInitial = 1`, while the claimed
rule ("reset only after a connection that delivers at least one message",
embodied by `runRoundsSpecReset`) predicts the unreset delay `4`. -/
theorem c6_counterexample :
    connect_and_listen { backoff_initial := 1, backoff_max := 60 }
        [RoundOutcome.failAll, RoundOutcome.failAll, RoundOutcome.success 0,
          RoundOutcome.failAll] = [1, 2, 1] ∧
    runRoundsSpecReset { backoff_initial := 1, backoff_max := 60 } 1
        [RoundOutcome.failAll, RoundOutcome.failAll, RoundOutcome.success 0,
          RoundOutcome.failAll] = [1, 2, 4] ∧
    connect_and_listen { backoff_initial := 1, backoff_max := 60 }
        [RoundOutcome.failAll, RoundOutcome.failAll, RoundOutcome.success 0,
          RoundOutcome.failAll] ≠
      runRoundsSpecReset { backoff_initial := 1, backoff_max := 60 } 1
        [RoundOutcome.failAll, RoundOutcome.failAll, RoundOutcome.success 0,
          RoundOutcome.failAll] := by
  refine ⟨?_, ?_, ?_⟩
  · norm_num [connect_and_listen, runRounds]
  · norm_num [runRoundsSpecReset]
  · norm_num [connect_and_listen, runRounds, runRoundsSpecReset]

/-! ## C1: stop-loss -/

/-- C1 (amended): the stop-loss is keyed on the entry price, not on the band
(src/strategy.py lines 74–97): with `position = short`, `entry_price = e` and
`closePrice ≥ e·1.001` (available bands, otherwise arbitrary inputs), `decide`
emits `stop_loss_short` and resets to `flat`, clearing `entry_price`,
`breakout_level`, `pending` and both breakout flags, regardless of the
breakout flags, the pending sub-state, `isClosed` or `onlyOnClose`
(`last_close_price` is updated only when `isClosed`); symmetrically for
`position = long` with `closePrice ≤ e·0.999`, emitting `stop_loss_long`. -/
theorem c1_stop_loss_keyed_on_entry_price (c up dn : ℚ) (hp lp : Option ℚ)
    (ic oc ul : Bool) (rbp : ℚ) (s : StrategyState) (e : ℚ) :
    (s.position = Pos.short → s.entry_price = some e → e * (1 + 1/1000) ≤ c →
      decide c (some up) (some dn) hp lp ic oc ul rbp s =
        (some Signal.stop_loss_short,
          { position := Pos.flat, pending := none, entry_price := none,
            breakout_level := none, breakout_up := false, breakout_dn := false,
            last_close_price := if ic then some c else s.last_close_price })) ∧
    (s.position = Pos.long → s.entry_price = some e → c ≤ e * (1 - 1/1000) →
      decide c (some up) (some dn) hp lp ic oc ul rbp s =
        (some Signal.stop_loss_long,
          { position := Pos.flat, pending := none, entry_price := none,
            breakout_level := none, breakout_up := false, breakout_dn := false,
            last_close_price := if ic then some c else s.last_close_price })) := by
  constructor
  · intro hpos hep hge
    unfold decide
    dsimp only
    unfold stopLoss
    rw [updateBreakoutFlags_position, updateBreakoutFlags_entry_price, hpos, hep]
    dsimp only
    rw [if_pos hge, updateBreakoutFlags_last_close_price]
  · intro hpos hep hle
    unfold decide
    dsimp only
    unfold stopLoss
    rw [updateBreakoutFlags_position, updateBreakoutFlags_entry_price, hpos, hep]
    dsimp only
    rw [if_pos hle, updateBreakoutFlags_last_close_price]

/-- C1 witness: short at entry `100`, close `101 ≥ 100.1` fires the
stop-loss. -/
theorem c1_witness :
    decide 101 (some 105) (some 95) none none true true false 0
      { position := Pos.short, pending := some Pending.waiting_long_confirm,
        entry_price := some 100, breakout_level := some 95, breakout_up := false,
        breakout_dn := true, last_close_price := some 100 } =
    (some Signal.stop_loss_short,
      { position := Pos.flat, pending := none, entry_price := none,
        breakout_level := none, breakout_up := false, breakout_dn := false,
        last_close_price := some 101 }) :=
  (c1_stop_loss_keyed_on_entry_price 101 105 95 none none true true false 0
    { position := Pos.short, pending := some Pending.waiting_long_confirm,
      entry_price := some 100, breakout_level := some 95, breakout_up := false,
      breakout_dn := true, last_close_price := some 100 } 100).1 rfl rfl (by norm_num)

/-- C1 counterexample: `position = short` with `closePrice = 60 > up = 50`
but `closePrice < entry_price·1.001 = 100.1` produces *no* signal and leaves
the position short — the stop-loss condition of the code is
`closePrice ≥ entry_price·1.001`, not `closePrice > up` as claimed. -/
theorem c1_counterexample :
    (decide 60 (some 50) (some 1) none none true true false 0
      { position := Pos.short, pending := none, entry_price := some 100,
        breakout_level := none, breakout_up := false, breakout_dn := false,
        last_close_price := none }).1 = none ∧
    (decide 60 (some 50) (some 1) none none true true false 0
      { position := Pos.short, pending := none, entry_price := some 100,
        breakout_level := none, breakout_up := false, breakout_dn := false,
        last_close_price := none }).2.position = Pos.short := by
  constructor <;>
    · norm_num [decide, updateBreakoutFlags, breakoutFlagsAfter, stopLoss, afterStop,
        finishNone, canAct, shortReentryThreshold, longReentryThreshold]
      simp

/-! ## C4: breakout-flag update -/

/-- C4 (amended): the close-based breakout test of src/strategy.py lines
57–64 is an *edge* test guarded by the previous close: `breakout_up` is set by
the flag-update step when `last_close_price` is present with
`last_close_price ≤ up` and `closePrice > up`, or when the wick `high > up`
(and, because the low-wick test runs last, the low does not dip below `dn`);
a low wick below `dn` always yields `(breakout_dn, breakout_up) = (true,
false)`; and with no stored previous close and no wick data the step leaves
the flags unchanged — in particular a bare `closePrice > up` does not set
`breakout_up`.  Later steps of the same `decide` call (stop-loss, entries,
inside-band bookkeeping) may clear the flags again. -/
theorem c4_flag_update_guarded (c up dn : ℚ) (hp lp lcp : Option ℚ) (bu bd : Bool) :
    (((∃ p, lcp = some p ∧ p ≤ up ∧ up < c) ∨ (∃ h, hp = some h ∧ up < h)) →
      (∀ l, lp = some l → ¬ l < dn) →
      breakoutFlagsAfter c up dn hp lp lcp bu bd = (true, false)) ∧
    ((∃ l, lp = some l ∧ l < dn) →
      breakoutFlagsAfter c up dn hp lp lcp bu bd = (false, true)) ∧
    (lcp = none → hp = none → lp = none →
      breakoutFlagsAfter c up dn hp lp lcp bu bd = (bu, bd)) := by
  refine ⟨?_, ?_, ?_⟩
  · rintro (⟨p, hlcp, hple, hclose⟩ | ⟨h, hhp, hh⟩) hlow
    · subst hlcp
      unfold breakoutFlagsAfter
      cases hp with
      | none =>
        cases lp with
        | none => simp [hple, hclose]
        | some l => simp [hple, hclose, hlow l rfl]
      | some h =>
        cases lp with
        | none =>
          dsimp only
          split_ifs <;> simp_all
        | some l =>
          dsimp only
          split_ifs <;> simp_all [hlow l rfl]
    · subst hhp
      unfold breakoutFlagsAfter
      cases lp with
      | none => simp [hh]
      | some l => simp [hh, hlow l rfl]
  · rintro ⟨l, hlp, hl⟩
    subst hlp
    unfold breakoutFlagsAfter
    simp [hl]
  · rintro h1 h2 h3
    subst h1; subst h2; subst h3
    rfl

/-- C4 witness: previous close `4 ≤ up = 5` and close `10 > 5` sets
`(breakout_up, breakout_dn) = (true, false)`; a low wick `0 < dn = 1` on the
very same close-breakout input overrides to `(false, true)`; and with no
previous close and no wick data the same prices leave the flags
`(false, false)`. -/
theorem c4_witness :
    breakoutFlagsAfter 10 5 1 none none (some 4) false false = (true, false) ∧
    breakoutFlagsAfter 10 5 1 none (some 0) (some 4) false false = (false, true) ∧
    breakoutFlagsAfter 10 5 1 none none none false false = (false, false) :=
  ⟨(c4_flag_update_guarded 10 5 1 none none (some 4) false false).1
      (Or.inl ⟨4, rfl, by norm_num, by norm_num⟩) (by rintro l ⟨⟩),
   (c4_flag_update_guarded 10 5 1 none (some 0) (some 4) false false).2.1
      ⟨0, rfl, by norm_num⟩,
   (c4_flag_update_guarded 10 5 1 none none none false false).2.2 rfl rfl rfl⟩

/-- C4 counterexample: from the default state (no `last_close_price`, no
wick inputs) a call with `closePrice = 10 > up = 5` leaves `breakout_up`
false after `decide` — the claim's "no precondition on `last_close_price`"
fails, since the close-based test requires a stored previous close. -/
theorem c4_counterexample :
    (decide 10 (some 5) (some 0) none none false false false 0 {}).2.breakout_up = false := by
  norm_num [decide, updateBreakoutFlags, breakoutFlagsAfter, stopLoss, afterStop,
    finishNone, canAct, shortReentryThreshold, longReentryThreshold]
  simp

/-! ## C5: end-of-call bookkeeping -/

theorem finishNone_pending (c up dn : ℚ) (ic : Bool) (s : StrategyState) :
    ((finishNone c up dn ic s).2).pending = s.pending := by
  unfold finishNone
  split_ifs <;> rfl

theorem finishNone_clears (c up dn : ℚ) (ic : Bool) (s : StrategyState)
    (h1 : c ≤ up) (h2 : dn ≤ c) (h3 : s.pending = none) :
    ((finishNone c up dn ic s).2).breakout_up = false ∧
      ((finishNone c up dn ic s).2).breakout_dn = false := by
  unfold finishNone
  rw [if_pos ⟨h1, h2, h3⟩]
  split_ifs <;> exact ⟨rfl, rfl⟩

theorem finishNone_lcp_closed (c up dn : ℚ) (s : StrategyState) :
    ((finishNone c up dn true s).2).last_close_price = some c := by
  unfold finishNone
  split_ifs <;> simp_all

theorem finishNone_lcp_forming (c up dn : ℚ) (s : StrategyState) :
    ((finishNone c up dn false s).2).last_close_price = s.last_close_price := by
  unfold finishNone
  split_ifs <;> simp_all

/-- Whenever `afterStop` returns no signal, its result is `finishNone`
applied to some intermediate state (the source's fall-through to the final
bookkeeping block). -/
theorem afterStop_none_shape (c up dn : ℚ) (ic oc ul : Bool) (rbp : ℚ)
    (s : StrategyState) (h : (afterStop c up dn ic oc ul rbp s).1 = none) :
    ∃ s', afterStop c up dn ic oc ul rbp s = finishNone c up dn ic s' := by
  unfold afterStop at h ⊢
  rcases s with ⟨pos, pen, ep, lvl, bu, bd, lcp⟩
  cases pos <;> dsimp only at h ⊢ <;> split_ifs at h ⊢ <;> exact ⟨_, rfl⟩

theorem afterStop_lcp_closed (c up dn : ℚ) (oc ul : Bool) (rbp : ℚ)
    (s : StrategyState) :
    ((afterStop c up dn true oc ul rbp s).2).last_close_price = some c := by
  unfold afterStop
  rcases s with ⟨pos, pen, ep, lvl, bu, bd, lcp⟩
  cases pos <;> dsimp only <;> split_ifs <;>
    simp_all [finishNone_lcp_closed]

theorem afterStop_lcp_forming (c up dn : ℚ) (oc ul : Bool) (rbp : ℚ)
    (s : StrategyState) :
    ((afterStop c up dn false oc ul rbp s).2).last_close_price =
      s.last_close_price := by
  unfold afterStop
  rcases s with ⟨pos, pen, ep, lvl, bu, bd, lcp⟩
  cases pos <;> dsimp only <;> split_ifs <;>
    simp_all [finishNone_lcp_forming]

theorem stopLoss_some_lcp_closed (c : ℚ) (s : StrategyState) (sig : Signal)
    (h : (stopLoss c true s).1 = some sig) :
    ((stopLoss c true s).2).last_close_price = some c := by
  unfold stopLoss at h ⊢
  rcases s with ⟨pos, pen, ep, lvl, bu, bd, lcp⟩
  cases pos <;> cases ep <;> dsimp only at h ⊢ <;>
    first
      | (split_ifs at h ⊢ <;> simp_all)
      | simp_all

theorem stopLoss_lcp_forming (c : ℚ) (s : StrategyState) :
    ((stopLoss c false s).2).last_close_price = s.last_close_price := by
  unfold stopLoss
  rcases s with ⟨pos, pen, ep, lvl, bu, bd, lcp⟩
  cases pos <;> cases ep <;> dsimp only <;> split_ifs <;> simp_all

/-- C5 (amended): the deferred bookkeeping clearing of src/strategy.py lines
167–170 happens whenever the call produces no signal, the close is inside
the band and nothing is pending — with *no* `isClosed` guard, so it also
fires on a forming bar; and on every path of the call, signal or not,
`last_close_price` is set to the close exactly on closed-bar calls: a
closed-bar call records the close, a forming-bar call leaves
`last_close_price` unchanged, as claimed. -/
theorem c5_clearing_ignores_is_closed (c up dn : ℚ) (hp lp : Option ℚ)
    (ic oc ul : Bool) (rbp : ℚ) (s : StrategyState) :
    ((decide c (some up) (some dn) hp lp ic oc ul rbp s).1 = none →
      c ≤ up → dn ≤ c →
      ((decide c (some up) (some dn) hp lp ic oc ul rbp s).2).pending = none →
      ((decide c (some up) (some dn) hp lp ic oc ul rbp s).2).breakout_up = false ∧
        ((decide c (some up) (some dn) hp lp ic oc ul rbp s).2).breakout_dn = false) ∧
    (ic = true →
      ((decide c (some up) (some dn) hp lp ic oc ul rbp s).2).last_close_price = some c) ∧
    (ic = false →
      ((decide c (some up) (some dn) hp lp ic oc ul rbp s).2).last_close_price =
        s.last_close_price) := by
  refine ⟨?_, ?_, ?_⟩
  · intro hs h1 h2 hpen
    unfold decide at hs hpen ⊢
    dsimp only at hs hpen ⊢
    rcases hsl : (stopLoss c ic (updateBreakoutFlags c up dn hp lp s)).1 with _ | sig
    · rw [hsl] at hs hpen
      dsimp only at hs hpen ⊢
      obtain ⟨s', hshape⟩ := afterStop_none_shape c up dn ic oc ul rbp _ hs
      rw [hshape] at hpen ⊢
      rw [finishNone_pending] at hpen
      exact finishNone_clears c up dn ic s' h1 h2 hpen
    · rw [hsl] at hs
      dsimp only at hs
      rw [hsl] at hs
      exact Option.noConfusion hs
  · intro hic
    subst hic
    unfold decide
    dsimp only
    rcases hsl : (stopLoss c true (updateBreakoutFlags c up dn hp lp s)).1 with _ | sig
    · dsimp only
      exact afterStop_lcp_closed c up dn oc ul rbp _
    · dsimp only
      exact stopLoss_some_lcp_closed c _ sig hsl
  · intro hic
    subst hic
    unfold decide
    dsimp only
    rcases hsl : (stopLoss c false (updateBreakoutFlags c up dn hp lp s)).1 with _ | sig
    · dsimp only
      rw [afterStop_lcp_forming, updateBreakoutFlags_last_close_price]
    · dsimp only
      rw [stopLoss_lcp_forming, updateBreakoutFlags_last_close_price]

/-- C5 witness: a signal-free closed-bar call inside the band with nothing
pending clears the flags and records the close; a forming-bar call leaves
the stored `last_close_price` untouched. -/
theorem c5_witness :
    ((decide 5 (some 10) (some 1) none none true true false 0
        { position := Pos.short, pending := none, entry_price := none,
          breakout_level := none, breakout_up := true, breakout_dn := false,
          last_close_price := none }).2).breakout_up = false ∧
    ((decide 5 (some 10) (some 1) none none true true false 0
        { position := Pos.short, pending := none, entry_price := none,
          breakout_level := none, breakout_up := true, breakout_dn := false,
          last_close_price := none }).2).last_close_price = some 5 ∧
    ((decide 6 (some 10) (some 1) none none false true false 0
        { position := Pos.flat, pending := none, entry_price := none,
          breakout_level := none, breakout_up := false, breakout_dn := false,
          last_close_price := some 4 }).2).last_close_price = some 4 := by
  have h := c5_clearing_ignores_is_closed 5 10 1 none none true true false 0
    { position := Pos.short, pending := none, entry_price := none,
      breakout_level := none, breakout_up := true, breakout_dn := false,
      last_close_price := none }
  have h' := c5_clearing_ignores_is_closed 6 10 1 none none false true false 0
    { position := Pos.flat, pending := none, entry_price := none,
      breakout_level := none, breakout_up := false, breakout_dn := false,
      last_close_price := some 4 }
  refine ⟨(h.1 ?_ (by norm_num) (by norm_num) ?_).1, h.2.1 rfl, h'.2.2 rfl⟩ <;>
    · norm_num [decide, updateBreakoutFlags, breakoutFlagsAfter, stopLoss, afterStop,
        finishNone, canAct, longReentryThreshold]
      simp

/-- C5 counterexample: on a *forming* bar (`isClosed = false`), a short
position with `breakout_up` set, nothing pending and the close inside the
band still has its flags cleared by the bookkeeping block — the claim's
"on a forming bar this clearing does not occur" is false, since lines
167–170 of src/strategy.py carry no `is_closed` guard. -/
theorem c5_counterexample :
    (decide 5 (some 10) (some 1) none none false false false 0
      { position := Pos.short, pending := none, entry_price := none,
        breakout_level := none, breakout_up := true, breakout_dn := false,
        last_close_price := none }).2.breakout_up = false := by
  norm_num [decide, updateBreakoutFlags, breakoutFlagsAfter, stopLoss, afterStop,
    finishNone, canAct, longReentryThreshold]
  simp

/-! ## C2: window maintenance -/

theorem addKline_snd (cfg : IndicatorCfg) (df : List Bar) (k : Bar) :
    (addKline cfg df k).2 =
      if (df ++ [k]).length > cfg.max_rows then ilocLast cfg.max_rows (df ++ [k])
      else df ++ [k] := by
  unfold addKline
  dsimp only
  split <;> split <;> rfl

/-- C2 (amended): `add_kline` always *appends* the incoming row — a bar with
a duplicate `openTime` is stored next to the old one, not overwritten — and
eviction keeps the last `maxRows` rows in *insertion* order, so with a
positive capacity the retained window is exactly the suffix of the insertion
sequence of length `min(length+1, maxRows)`, regardless of `openTime`
ordering. -/
theorem c2_window_keeps_insertion_suffix (cfg : IndicatorCfg) (df : List Bar)
    (k : Bar) (hm : 0 < cfg.max_rows) :
    (addKline cfg df k).2 =
      (df ++ [k]).drop ((df ++ [k]).length - cfg.max_rows) := by
  rw [addKline_snd]
  unfold ilocLast
  rw [if_neg (Nat.pos_iff_ne_zero.mp hm)]
  split_ifs with h
  · rfl
  · rw [Nat.sub_eq_zero_of_le (le_of_not_lt h), List.drop_zero]

/-- C2 witness: capacity 2, three inserted bars: the retained window is the
last two inserted rows. -/
theorem c2_witness :
    (addKline { max_rows := 2 } [bT 1 7 true, bT 2 8 true] (bT 3 9 true)).2 =
      ([bT 1 7 true, bT 2 8 true] ++ [bT 3 9 true]).drop
        (([bT 1 7 true, bT 2 8 true] ++ [bT 3 9 true]).length - 2) :=
  c2_window_keeps_insertion_suffix { max_rows := 2 } [bT 1 7 true, bT 2 8 true]
    (bT 3 9 true) (by norm_num)

/-- C2 counterexample: re-delivering `openTime = 1` appends a second row
with the same `openTime` (no overwrite), and with capacity 1 inserting an
*older* `openTime = 3` after `openTime = 5` evicts the newer bar — the
retained set is the most recent by insertion, not by `openTime`. -/
theorem c2_counterexample :
    (addKline { max_rows := 2 } [bT 1 7 true] (bT 1 8 true)).2.map
        (fun b => b.open_time) = [1, 1] ∧
    ¬ ((addKline { max_rows := 2 } [bT 1 7 true] (bT 1 8 true)).2.map
        (fun b => b.open_time)).Nodup ∧
    (addKline { max_rows := 1 } [bT 5 7 true] (bT 3 8 true)).2.map
        (fun b => b.open_time) = [3] := by
  refine ⟨?_, ?_, ?_⟩ <;> norm_num [addKline, ilocLast, closedCloses, lastN, bT]

/-! ## C7: realtime snapshot availability -/

theorem rtSeries_length_ge_two (cfg : IndicatorCfg) (df : List Bar) (c : ℚ)
    (h : closedCloses df ≠ []) : 2 ≤ (rtSeries cfg df c).length := by
  unfold rtSeries lastN
  have hpos : 0 < (closedCloses df).length := List.length_pos.mpr h
  have h1 : 1 ≤ min (closedCloses df).length (max 1 (cfg.window - 1)) :=
    le_min hpos (le_max_left 1 _)
  have h2 : min (closedCloses df).length (max 1 (cfg.window - 1)) ≤
      (closedCloses df).length := min_le_left _ _
  simp only [List.length_append, List.length_drop, List.length_cons,
    List.length_nil]
  omega

/-- C7 (amended): the realtime series is the last
`min(closedCount, max(1, window-1))` closed closes plus `currentClose` — for
`window = 1` the code substitutes `max(1, window-1) = 1`, so the series is
one closed close plus `currentClose`, never `currentClose` alone — and the
snapshot is unavailable exactly when there is no closed bar, or the std over
that series is NaN or zero; an available snapshot carries the mean and a
nonzero, non-NaN variance of exactly that series (hence never `up = dn`). -/
theorem c7_realtime_series_unavailability (cfg : IndicatorCfg) (df : List Bar)
    (c : ℚ) :
    (computeRealtimeBoll cfg df c = none ↔
      closedCloses df = [] ∨
        varDdof cfg.boll_ddof (rtSeries cfg df c) = none ∨
        varDdof cfg.boll_ddof (rtSeries cfg df c) = some 0) ∧
    (∀ b : Boll, computeRealtimeBoll cfg df c = some b →
      b.ma = mean (rtSeries cfg df c) ∧
        b.var = varDdof cfg.boll_ddof (rtSeries cfg df c) ∧
        b.var ≠ some 0 ∧ b.var ≠ none) := by
  constructor
  · unfold computeRealtimeBoll
    by_cases h0 : (closedCloses df).length = 0
    · simp [h0, List.length_eq_zero.mp h0]
    · have hne : closedCloses df ≠ [] := fun hh => h0 (by simp [hh])
      have hlen := rtSeries_length_ge_two cfg df c hne
      rw [if_neg h0]
      dsimp only
      rw [if_neg (by omega : ¬ (rtSeries cfg df c).length < 2)]
      rcases hv : varDdof cfg.boll_ddof (rtSeries cfg df c) with _ | v
      · simp [hne]
      · by_cases hz : v = 0
        · subst hz; simp [hne]
        · simp [hz, hne]
  · intro b hb
    unfold computeRealtimeBoll at hb
    by_cases h0 : (closedCloses df).length = 0
    · rw [if_pos h0] at hb
      exact Option.noConfusion hb
    · rw [if_neg h0] at hb
      dsimp only at hb
      have hne : closedCloses df ≠ [] := fun hh => h0 (by simp [hh])
      have hlen := rtSeries_length_ge_two cfg df c hne
      rw [if_neg (by omega : ¬ (rtSeries cfg df c).length < 2)] at hb
      rcases hv : varDdof cfg.boll_ddof (rtSeries cfg df c) with _ | v
      · rw [hv] at hb
        exact Option.noConfusion hb
      · rw [hv] at hb
        dsimp only at hb
        by_cases hz : v = 0
        · rw [if_pos hz] at hb
          exact Option.noConfusion hb
        · rw [if_neg hz] at hb
          obtain rfl := Option.some.inj hb
          exact ⟨rfl, rfl, by simp [hz], by simp⟩

/-- C7 witness (the spec's flat-stdev scenario): identical closed closes and
an equal forming price give a zero-variance series, hence "unavailable". -/
theorem c7_witness :
    computeRealtimeBoll { window := 3, boll_ddof := 0 } [bT 1 5 true, bT 2 5 true] 5 =
      none :=
  (c7_realtime_series_unavailability { window := 3, boll_ddof := 0 }
      [bT 1 5 true, bT 2 5 true] 5).1.mpr
    (Or.inr (Or.inr (by
      norm_num [rtSeries, closedCloses, lastN, varDdof, mean, bT, List.filter])))

/-- C7 counterexample: with `window = 1` the code uses
`max(1, window-1) = 1` closed close plus the forming price — the claimed
series "currentClose alone" (which would be unavailable with fewer than 2
points) is wrong: one closed close `100` and forming price `200` yield an
available snapshot with mean `150` and variance `2500`. -/
theorem c7_counterexample :
    computeRealtimeBoll { window := 1, boll_ddof := 0 } [bT 1 100 true] 200 =
        some { ma := 150, var := some 2500 } ∧
      computeRealtimeBoll { window := 1, boll_ddof := 0 } [bT 1 100 true] 200 ≠ none := by
  have h : computeRealtimeBoll { window := 1, boll_ddof := 0 } [bT 1 100 true] 200 =
      some { ma := 150, var := some 2500 } := by
    norm_num [computeRealtimeBoll, rtSeries, closedCloses, lastN, varDdof, mean, bT,
      List.filter]
  exact ⟨h, by rw [h]; simp⟩

/-! ## C8: realtime vs canonical at bar close -/

theorem closedCloses_append_closed (df : List Bar) (k : Bar)
    (hk : k.is_closed = true) :
    closedCloses (df ++ [k]) = closedCloses df ++ [k.close] := by
  unfold closedCloses
  rw [List.filter_append]
  simp [hk]

theorem lastN_append_singleton (n : ℕ) (l : List ℚ) (x : ℚ) (hn : 1 ≤ n) :
    lastN n (l ++ [x]) = lastN (n - 1) l ++ [x] := by
  unfold lastN
  rw [List.length_append]
  simp only [List.length_cons, List.length_nil]
  have h : l.length + 1 - n ≤ l.length := by omega
  have harg : l.length + 1 - n = l.length - (n - 1) := by omega
  rw [List.drop_append_of_le_length h, harg]

theorem addKline_fst_no_evict (cfg : IndicatorCfg) (df : List Bar) (k : Bar)
    (hroom : (df ++ [k]).length ≤ cfg.max_rows) :
    (addKline cfg df k).1 =
      if (closedCloses (df ++ [k])).length < cfg.window then none
      else some { ma := mean (lastN cfg.window (closedCloses (df ++ [k])))
                  var := varDdof cfg.boll_ddof
                    (lastN cfg.window (closedCloses (df ++ [k]))) } := by
  unfold addKline
  dsimp only
  rw [if_neg (not_lt.mpr hroom)]
  split <;> simp_all

/-- C8 (amended): when the canonical window is satisfied (`window ≥ 2`, at
least `window-1` closed bars), no eviction intervenes and the realtime
snapshot of the forming price is *available* (nonzero, well-defined std),
the realtime snapshot computed just before the bar closes equals the
canonical snapshot computed by `add_kline` just after it is inserted as
closed: both range over the identical series with the same `ddof`
statistic. -/
theorem c8_realtime_eq_canonical (cfg : IndicatorCfg) (df : List Bar) (k : Bar)
    (hw : 2 ≤ cfg.window)
    (hc : cfg.window - 1 ≤ (closedCloses df).length)
    (hroom : (df ++ [k]).length ≤ cfg.max_rows)
    (hk : k.is_closed = true)
    (hav : computeRealtimeBoll cfg df k.close ≠ none) :
    (addKline cfg df k).1 = computeRealtimeBoll cfg df k.close := by
  have hser : lastN cfg.window (closedCloses (df ++ [k])) = rtSeries cfg df k.close := by
    rw [closedCloses_append_closed df k hk,
      lastN_append_singleton _ _ _ (by omega : 1 ≤ cfg.window)]
    unfold rtSeries
    dsimp only
    have hmax : max 1 (cfg.window - 1) = cfg.window - 1 := max_eq_right (by omega)
    rw [hmax, min_eq_right hc]
  have hlen2 : ¬ (closedCloses (df ++ [k])).length < cfg.window := by
    rw [closedCloses_append_closed df k hk]
    simp only [List.length_append, List.length_cons, List.length_nil]
    omega
  rw [addKline_fst_no_evict cfg df k hroom, if_neg hlen2, hser]
  have h0 : ¬ (closedCloses df).length = 0 := by omega
  have hne : closedCloses df ≠ [] := fun hh => h0 (by simp [hh])
  have hlen := rtSeries_length_ge_two cfg df k.close hne
  unfold computeRealtimeBoll at hav ⊢
  rw [if_neg h0] at hav ⊢
  dsimp only at hav ⊢
  rw [if_neg (by omega : ¬ (rtSeries cfg df k.close).length < 2)] at hav ⊢
  rcases hv : varDdof cfg.boll_ddof (rtSeries cfg df k.close) with _ | v
  · rw [hv] at hav
    dsimp only at hav
    exact absurd rfl hav
  · rw [hv] at hav
    dsimp only at hav
    by_cases hz : v = 0
    · rw [if_pos hz] at hav
      exact absurd rfl hav
    · simp [hz]

/-- C8 witness: one closed close `4`, forming price `8`, `window = 2`: both
snapshots are `(ma, var) = (6, 4)` over the series `[4, 8]`. -/
theorem c8_witness :
    (addKline { window := 2, boll_ddof := 0, max_rows := 10 } [bT 1 4 true]
        (bT 2 8 true)).1 =
      computeRealtimeBoll { window := 2, boll_ddof := 0, max_rows := 10 }
        [bT 1 4 true] (bT 2 8 true).close :=
  c8_realtime_eq_canonical { window := 2, boll_ddof := 0, max_rows := 10 }
    [bT 1 4 true] (bT 2 8 true) (by norm_num)
    (by norm_num [closedCloses, bT, List.filter]) (by norm_num) rfl
    (by
      have h : computeRealtimeBoll { window := 2, boll_ddof := 0, max_rows := 10 }
          [bT 1 4 true] (bT 2 8 true).close = some { ma := 6, var := some 4 } := by
        norm_num [computeRealtimeBoll, rtSeries, closedCloses, lastN, varDdof, mean,
          bT, List.filter]
      rw [h]
      simp)

/-- C8 counterexample: on a flat series the two snapshots differ — with one
closed close `5` and a forming price `5` (`window = 2`), the realtime
snapshot is "unavailable" (zero variance) while the canonical snapshot
after the bar closes is available with `var = 0` (`up = dn = ma`), so the
claimed component-for-component equality fails even though the canonical
window is satisfied. -/
theorem c8_counterexample :
    computeRealtimeBoll { window := 2, boll_ddof := 0, max_rows := 10 }
        [bT 1 5 true] 5 = none ∧
    (addKline { window := 2, boll_ddof := 0, max_rows := 10 } [bT 1 5 true]
        (bT 2 5 true)).1 = some { ma := 5, var := some 0 } ∧
    computeRealtimeBoll { window := 2, boll_ddof := 0, max_rows := 10 }
        [bT 1 5 true] 5 ≠
      (addKline { window := 2, boll_ddof := 0, max_rows := 10 } [bT 1 5 true]
        (bT 2 5 true)).1 := by
  have h1 : computeRealtimeBoll { window := 2, boll_ddof := 0, max_rows := 10 }
      [bT 1 5 true] 5 = none := by
    norm_num [computeRealtimeBoll, rtSeries, closedCloses, lastN, varDdof, mean, bT,
      List.filter]
  have h2 : (addKline { window := 2, boll_ddof := 0, max_rows := 10 } [bT 1 5 true]
      (bT 2 5 true)).1 = some { ma := 5, var := some 0 } := by
    norm_num [addKline, ilocLast, closedCloses, lastN, varDdof, mean, bT, List.filter]
  exact ⟨h1, h2, by rw [h1, h2]; simp⟩

/-! ## C3: state persistence in the consumer callback -/

/-- C3 (amended): `on_kline` persists the `StrategyState` snapshot as its
final store operation only on the paths that fall through to the end of the
callback: when the realtime bands are available and either no signal fired,
or a signal fired outside simulation mode with API keys configured.  The
remaining paths return early without persisting (realtime bands unavailable;
signal in simulate mode; signal with missing API keys). -/
theorem c3_save_only_on_fallthrough (cfg : AppCfg) (ind : IndicatorCfg)
    (tr : TraderOracle) (sqrtA : ℚ → ℚ) (df : List Bar) (st : StrategyState)
    (k : Bar) (rt : Boll)
    (hrt : computeRealtimeBoll ind (addKline ind df k).2 k.close = some rt)
    (hpath :
      (decide k.close (some (rt.ma + ind.boll_multiplier * rtStd sqrtA rt))
          (some (rt.ma - ind.boll_multiplier * rtStd sqrtA rt)) (some k.high)
          (some k.low) k.is_closed cfg.only_on_close
          cfg.use_breakout_level_for_entry cfg.reentry_buffer_pct
          (syncPosition cfg tr st)).1 = none ∨
        (cfg.simulate_trading = false ∧ cfg.has_api_keys = true)) :
    ((onKline cfg ind tr sqrtA df st k).1).getLast? =
      some (Effect.saveStrategyState (onKline cfg ind tr sqrtA df st k).2.1) := by
  unfold onKline
  simp only [hrt]
  rcases hd : (decide k.close (some (rt.ma + ind.boll_multiplier * rtStd sqrtA rt))
      (some (rt.ma - ind.boll_multiplier * rtStd sqrtA rt)) (some k.high)
      (some k.low) k.is_closed cfg.only_on_close cfg.use_breakout_level_for_entry
      cfg.reentry_buffer_pct (syncPosition cfg tr st)).1 with _ | sig
  · dsimp only
    rw [List.getLast?_concat]
  · rcases hpath with hnone | ⟨hsim, hkeys⟩
    · rw [hd] at hnone
      exact Option.noConfusion hnone
    · dsimp only
      rw [hsim, hkeys]
      simp
      rw [← List.singleton_append, ← List.append_assoc, List.getLast?_append_cons,
        ← List.cons_append, List.getLast?_concat]

/-- C3 witness: a signal-free forming-bar update outside simulation mode
persists the snapshot as its last effect. -/
theorem c3_witness :
    ((onKline { simulate_trading := false, has_api_keys := true, only_on_close := false }
        { window := 2, boll_ddof := 0, boll_multiplier := 2, max_rows := 10 }
        { position_query_fails := true, position_info := none, order_ok := true }
        (fun _ => 0) [bT 1 10 true] {} (bT 2 11 false)).1).getLast? =
      some (Effect.saveStrategyState
        (onKline { simulate_trading := false, has_api_keys := true, only_on_close := false }
          { window := 2, boll_ddof := 0, boll_multiplier := 2, max_rows := 10 }
          { position_query_fails := true, position_info := none, order_ok := true }
          (fun _ => 0) [bT 1 10 true] {} (bT 2 11 false)).2.1) :=
  c3_save_only_on_fallthrough _ _ _ _ _ _ _ { ma := 21/2, var := some (1/4) }
    (by norm_num [computeRealtimeBoll, rtSeries, closedCloses, lastN, varDdof, mean,
      addKline, ilocLast, bT, List.filter])
    (Or.inr ⟨rfl, rfl⟩)

/-- C3 counterexample: in simulate-trading mode a fired signal makes
`on_kline` return at src/main.py line 305, after mutating the strategy state
(a stop-loss here) but *without* persisting it: the effect trace contains no
`saveStrategyState` at all, refuting "persists on every execution path". -/
theorem c3_counterexample :
    (onKline { simulate_trading := true, has_api_keys := false, only_on_close := false }
        { window := 2, boll_ddof := 0, boll_multiplier := 1, max_rows := 10 }
        { position_query_fails := false, position_info := none, order_ok := true }
        (fun _ => 0) [bT 1 10 true]
        { position := Pos.short, pending := none, entry_price := some 100,
          breakout_level := none, breakout_up := false, breakout_dn := false,
          last_close_price := none }
        (bT 2 200 false)).1 =
      [Effect.insertKline, Effect.logSignal Signal.stop_loss_short, Effect.logTrade,
        Effect.updateTradeStatus] ∧
    ((onKline { simulate_trading := true, has_api_keys := false, only_on_close := false }
        { window := 2, boll_ddof := 0, boll_multiplier := 1, max_rows := 10 }
        { position_query_fails := false, position_info := none, order_ok := true }
        (fun _ => 0) [bT 1 10 true]
        { position := Pos.short, pending := none, entry_price := some 100,
          breakout_level := none, breakout_up := false, breakout_dn := false,
          last_close_price := none }
        (bT 2 200 false)).1).any Effect.isSave = false := by
  have h : (onKline { simulate_trading := true, has_api_keys := false, only_on_close := false }
      { window := 2, boll_ddof := 0, boll_multiplier := 1, max_rows := 10 }
      { position_query_fails := false, position_info := none, order_ok := true }
      (fun _ => 0) [bT 1 10 true]
      { position := Pos.short, pending := none, entry_price := some 100,
        breakout_level := none, breakout_up := false, breakout_dn := false,
        last_close_price := none }
      (bT 2 200 false)).1 =
      [Effect.insertKline, Effect.logSignal Signal.stop_loss_short, Effect.logTrade,
        Effect.updateTradeStatus] := by
    norm_num [onKline, addKline, ilocLast, closedCloses, lastN, varDdof, mean, bT,
      List.filter, computeRealtimeBoll, rtSeries, rtStd, syncPosition, simTradeEffects,
      decide, updateBreakoutFlags, breakoutFlagsAfter, stopLoss, afterStop, finishNone,
      canAct]
  exact ⟨h, by rw [h]; rfl⟩

end BTS
